import Mathlib

/-!
Shallow embedding of the `deploy` package of the spread repository: the
reconciliation engine (`Deploy`, `update`, `create`, `get`, `deletePods`,
`copyImmutables`, `alreadyExists`, `doesNotExist`, `resourceError`) and the
convergence monitor (`printLoadBalancers`).

The remote cluster is modelled as an association list from resource keys
(kind, namespace, name) to stored objects, together with a fault function
that can inject an error for any request (modelling transport or server
errors).  Every network call the Go code makes is recorded in a request
trace.  Server-side mechanisms the repository does not implement are
modelled at the interface level: the `export` request parameter is recorded
on the request but does not transform the returned object, and applying a
strategic-merge patch built by `diff(deployed, obj)` to the live object is
modelled as replacing the live object with the desired one under a fresh
server-assigned resource version.  JSON serialization of the in-memory
objects cannot fail, so `diff` errors are not modelled.
-/

namespace SpreadDeploy

/-- Object metadata, mirroring the fields of the Kubernetes `ObjectMeta`
that the engine reads or writes: name, namespace, resource version and
labels. -/
structure ObjectMeta where
  name : String
  nspace : String
  resourceVersion : String
  labels : List (String × String)
deriving DecidableEq

inductive ServiceType
  | clusterIPType
  | nodePortType
  | loadBalancer
deriving DecidableEq

structure ServicePort where
  portName : String
  nodePort : Int
deriving DecidableEq

/-- One ingress point of a load balancer (`LoadBalancerIngress`). -/
structure LBIngress where
  ip : String
  hostname : String
deriving DecidableEq

structure ServiceSpec where
  typ : ServiceType
  clusterIP : String
  ports : List ServicePort
deriving DecidableEq

structure ServiceStatus where
  ingress : List LBIngress
deriving DecidableEq

structure RCSpec where
  selector : List (String × String)
deriving DecidableEq

/-- The resource objects the engine dispatches on by runtime type:
`*kube.Namespace`, `*kube.Service`, `*kube.ReplicationController`,
`*kube.Pod`, and a generic variant for the remaining kinds of the closed
set (whose kind-specific fields the engine never touches, abstracted as an
opaque payload string). -/
inductive KubeObject
  | nsObj (meta : ObjectMeta)
  | service (meta : ObjectMeta) (spec : ServiceSpec) (status : ServiceStatus)
  | rc (meta : ObjectMeta) (spec : RCSpec)
  | pod (meta : ObjectMeta)
  | generic (kind : String) (meta : ObjectMeta) (payload : String)
deriving DecidableEq

def KubeObject.meta : KubeObject → ObjectMeta
  | .nsObj m => m
  | .service m _ _ => m
  | .rc m _ => m
  | .pod m => m
  | .generic _ m _ => m

def KubeObject.kind : KubeObject → String
  | .nsObj _ => "Namespace"
  | .service _ _ _ => "Service"
  | .rc _ _ => "ReplicationController"
  | .pod _ => "Pod"
  | .generic k _ _ => k

/-- `meta.SetResourceVersion` on the object's metadata. -/
def KubeObject.setResourceVersion : KubeObject → String → KubeObject
  | .nsObj m, v => .nsObj ⟨m.name, m.nspace, v, m.labels⟩
  | .service m sp st, v => .service ⟨m.name, m.nspace, v, m.labels⟩ sp st
  | .rc m sp, v => .rc ⟨m.name, m.nspace, v, m.labels⟩ sp
  | .pod m, v => .pod ⟨m.name, m.nspace, v, m.labels⟩
  | .generic k m p, v => .generic k ⟨m.name, m.nspace, v, m.labels⟩ p

/-- The type assertion `obj.(*kube.Namespace)` used as a test. -/
def isNamespaceObj : KubeObject → Bool
  | .nsObj _ => true
  | _ => false

/-- The type assertion `obj.(*kube.ReplicationController)` used as a test. -/
def isRCObj : KubeObject → Bool
  | .rc _ _ => true
  | _ => false

/-- `ClusterIP` of a service object, if the object is a service. -/
def svcClusterIP : KubeObject → Option String
  | .service _ sp _ => some sp.clusterIP
  | _ => none

/-- `copyImmutables(src, dst)`: switches on the runtime type of `src`; for
a `*kube.Service` it copies `Spec.ClusterIP` from `src` onto `dst`.  The
source casts `dst` to the same type and would panic on a mismatch; the
model leaves `dst` unchanged in every non-service case. -/
def copyImmutables (src dst : KubeObject) : KubeObject :=
  match src, dst with
  | .service _ srcSp _, .service m sp st =>
      .service m ⟨sp.typ, srcSp.clusterIP, sp.ports⟩ st
  | _, _ => dst

/-- `strings.HasSuffix`, embedded over the character lists of the two
strings. -/
def hasSuffixStr (s post : String) : Bool :=
  List.isSuffixOf post.data s.data

/-- `alreadyExists(err)`: a nil error is never classified; otherwise the
error message is checked for the suffix "already exists".  A Go `error`
value is modelled as `Option String` (`none` is nil). -/
def alreadyExists : Option String → Bool
  | none => false
  | some s => hasSuffixStr s "already exists"

/-- `doesNotExist(err)`: a nil error is never classified; otherwise the
error message is checked for the suffix "not found". -/
def doesNotExist : Option String → Bool
  | none => false
  | some s => hasSuffixStr s "not found"

/-- `resourceError(action, namespace, name, mapping, err)`.  The RESTMapping
argument is modelled by its kind string (empty when the mapping is nil or
its GroupVersionKind is empty). -/
def resourceError (action nspace name kind : String) (err : String) : String :=
  if kind = "" then
    "could not " ++ action ++ " '" ++ nspace ++ "/" ++ name ++ "': " ++ err
  else
    "could not " ++ action ++ " '" ++ nspace ++ "/" ++ name ++ "' (" ++ kind ++ "): " ++ err

/-- `mapping(obj)` produces the RESTMapping of the object; the model keeps
its kind string.  For objects of the closed kind set the lookup succeeds. -/
def mappingOf (o : KubeObject) : String := o.kind

/-- Address of a stored cluster resource: kind, namespace, name. -/
structure Key where
  kind : String
  nspace : String
  name : String
deriving DecidableEq

def keyOf (o : KubeObject) : Key :=
  ⟨o.kind, o.meta.nspace, o.meta.name⟩

/-- The network requests the engine can issue, as recorded in the trace. -/
inductive Req
  | nsCreate (name : String)
  | getReq (kind nspace name : String) (exportFlag : Bool)
  | createReq (kind nspace name : String)
  | patchReq (kind nspace name : String)
  | podList (nspace : String) (selector : List (String × String))
  | podDelete (nspace name : String)
  | svcGet (nspace name : String)
  | sleep
deriving DecidableEq

def isNsCreateReq : Req → Bool
  | .nsCreate _ => true
  | _ => false

def isPatchReq : Req → Bool
  | .patchReq _ _ _ => true
  | _ => false

def isPodDeleteReq : Req → Bool
  | .podDelete _ _ => true
  | _ => false

def isPodListReq : Req → Bool
  | .podList _ _ => true
  | _ => false

/-- Number of patch requests in a trace. -/
def patchCount (rs : List Req) : Nat :=
  (rs.filter isPatchReq).length

/-- The remote cluster: stored objects keyed by (kind, namespace, name),
an error-injection function modelling transport/server failures, and a
counter for server-assigned resource versions. -/
structure Cluster where
  live : List (Key × KubeObject)
  faults : Req → Option String
  nextRV : Nat

def lookupKey : List (Key × KubeObject) → Key → Option KubeObject
  | [], _ => none
  | p :: rest, k => if p.1 = k then some p.2 else lookupKey rest k

def updateAssoc : List (Key × KubeObject) → Key → KubeObject → List (Key × KubeObject)
  | [], _, _ => []
  | p :: rest, k, v =>
    if p.1 = k then (k, v) :: updateAssoc rest k v else p :: updateAssoc rest k v

def removeKey : List (Key × KubeObject) → Key → List (Key × KubeObject)
  | [], _ => []
  | p :: rest, k => if p.1 = k then removeKey rest k else p :: removeKey rest k

/-- `get` (the private cluster fetch): builds a GET request with the
object's routing information and the optional `export` parameter, and wraps
every failure with `resourceError("get", namespace, name, mapping, err)`. -/
def getRun (c : Cluster) (nspace name : String) (exportFlag : Bool) (kind : String) :
    Except String KubeObject × Cluster × List Req :=
  let req := Req.getReq kind nspace name exportFlag
  match c.faults req with
  | some e => (.error (resourceError "get" nspace name kind e), c, [req])
  | none =>
    match lookupKey c.live ⟨kind, nspace, name⟩ with
    | none =>
        (.error (resourceError "get" nspace name kind (kind ++ " \"" ++ name ++ "\" not found")),
         c, [req])
    | some o => (.ok o, c, [req])

/-- `create` (the private cluster create): POSTs the object; failures are
wrapped with `resourceError("create", meta.GetName(), meta.GetNamespace(),
mapping, err)` — the source passes the name in the namespace position and
the namespace in the name position, embedded verbatim. -/
def createRun (c : Cluster) (obj : KubeObject) (kind : String) :
    Except String KubeObject × Cluster × List Req :=
  let m := obj.meta
  let req := Req.createReq kind m.nspace m.name
  match c.faults req with
  | some e => (.error (resourceError "create" m.name m.nspace kind e), c, [req])
  | none =>
    match lookupKey c.live ⟨kind, m.nspace, m.name⟩ with
    | some _ =>
        (.error (resourceError "create" m.name m.nspace kind
          (kind ++ " \"" ++ m.name ++ "\" already exists")), c, [req])
    | none =>
        let stored := obj.setResourceVersion (toString c.nextRV)
        (.ok stored,
         { c with live := c.live ++ [(⟨kind, m.nspace, m.name⟩, stored)],
                  nextRV := c.nextRV + 1 },
         [req])

/-- `update(obj, create, mapping)`: fetch the live object (with the export
parameter set, as in the source), fall back to create when the error is
classified not-found and `create` is set, abort on any other fetch error;
otherwise copy the live resource version and immutable fields onto the
desired object, return the live object when the two are deep-equal, and
otherwise PATCH.  The server's application of the two-way merge patch is
modelled as replacing the live object with the desired one under a fresh
resource version. -/
def updateRun (c : Cluster) (obj : KubeObject) (create : Bool) (kind : String) :
    Except String KubeObject × Cluster × List Req :=
  let m := obj.meta
  let (getRes, c1, r1) := getRun c m.nspace m.name true kind
  match getRes with
  | .error e =>
    if doesNotExist (some e) && create then
      let (res2, c2, r2) := createRun c1 obj kind
      (res2, c2, r1 ++ r2)
    else (.error e, c1, r1)
  | .ok deployed =>
    let obj1 := obj.setResourceVersion deployed.meta.resourceVersion
    let obj2 := copyImmutables deployed obj1
    if obj2 = deployed then (.ok deployed, c1, r1)
    else
      let req := Req.patchReq kind m.nspace m.name
      match c1.faults req with
      | some e => (.error (resourceError "update" m.nspace m.name kind e), c1, r1 ++ [req])
      | none =>
        let newLive := obj2.setResourceVersion (toString c1.nextRV)
        (.ok newLive,
         { c1 with live := updateAssoc c1.live ⟨kind, m.nspace, m.name⟩ newLive,
                   nextRV := c1.nextRV + 1 },
         r1 ++ [req])

/-- `c.Client.Namespaces().Create(ns)`: the typed namespace create used by
the pre-pass.  Its error is not wrapped by `resourceError`; the server's
duplicate error message ends in "already exists". -/
def nsCreateOp (c : Cluster) (obj : KubeObject) :
    Except String Unit × Cluster × List Req :=
  let name := obj.meta.name
  let req := Req.nsCreate name
  match c.faults req with
  | some e => (.error e, c, [req])
  | none =>
    match lookupKey c.live ⟨"Namespace", "", name⟩ with
    | some _ => (.error ("namespaces \"" ++ name ++ "\" already exists"), c, [req])
    | none =>
        (.ok (),
         { c with live := c.live ++ [(⟨"Namespace", "", name⟩,
                    obj.setResourceVersion (toString c.nextRV))],
                  nextRV := c.nextRV + 1 },
         [req])

/-- The namespace pre-pass of `Deploy`: attempt create for every namespace
object; continue when the error is classified "already exists", abort the
whole operation otherwise. -/
def nsPrePass : Cluster → List KubeObject → Except String Unit × Cluster × List Req
  | c, [] => (.ok (), c, [])
  | c, o :: rest =>
    let (res, c1, r1) := nsCreateOp c o
    match res with
    | .error e =>
      if alreadyExists (some e) then
        let (res2, c2, r2) := nsPrePass c1 rest
        (res2, c2, r1 ++ r2)
      else (.error e, c1, r1)
    | .ok _ =>
      let (res2, c2, r2) := nsPrePass c1 rest
      (res2, c2, r1 ++ r2)

/-- Modelled from the spec: the `Deployment` bundle type is not among the
source files (only its callers are).  Per the spec a bundle is an ordered
collection of resource objects "grouped retrievably by (API version,
kind)"; `ObjectsOfVersionKind("", kind)` selects the objects of the given
kind in bundle order (the engine only ever passes an empty version, which
matches every version), and `Objects()` is the whole list in its given
order. -/
def objectsOfVersionKind (dep : List KubeObject) (kind : String) : List KubeObject :=
  dep.filter (fun o => o.kind == kind)

/-- Label lookup in a label map (Go maps have unique keys; the model takes
the first binding). -/
def lookupLabel : String → List (String × String) → Option String
  | _, [] => none
  | k, p :: rest => if p.1 = k then some p.2 else lookupLabel k rest

/-- `labels.Set(selector).AsSelector()` matching: every selector pair must
be present among the pod's labels. -/
def labelsMatch (selector lbls : List (String × String)) : Bool :=
  selector.all (fun kv => lookupLabel kv.1 lbls == some kv.2)

/-- The pod list returned by `c.Client.Pods(rc.Namespace).List(opts)`: the
stored pods of the namespace whose labels match the selector, in store
order. -/
def podsMatching (l : List (Key × KubeObject)) (nspace : String)
    (selector : List (String × String)) : List KubeObject :=
  (l.filter (fun p =>
    p.1.kind == "Pod" && p.1.nspace == nspace
      && labelsMatch selector p.2.meta.labels)).map (fun p => p.2)

/-- The deletion loop of `deletePods`: delete each listed pod in order,
aborting on the first error (earlier deletions are not rolled back). -/
def deletePodsFold : Cluster → List KubeObject → Except String Unit × Cluster × List Req
  | c, [] => (.ok (), c, [])
  | c, p :: rest =>
    let m := p.meta
    let req := Req.podDelete m.nspace m.name
    match c.faults req with
    | some e => (.error e, c, [req])
    | none =>
      let c1 := { c with live := removeKey c.live ⟨"Pod", m.nspace, m.name⟩ }
      let (res, c2, r2) := deletePodsFold c1 rest
      (res, c2, req :: r2)

/-- `deletePods(rc)`: list the pods of the controller's namespace matching
its selector, then delete each one. -/
def deletePodsRun (c : Cluster) (nspace : String) (selector : List (String × String)) :
    Except String Unit × Cluster × List Req :=
  let req := Req.podList nspace selector
  match c.faults req with
  | some e => (.error e, c, [req])
  | none =>
    let pods := podsMatching c.live nspace selector
    let (res, c2, r2) := deletePodsFold c pods
    (res, c2, req :: r2)

/-- `deploy(obj, update)`: update when the mode is set, otherwise create;
the returned object is discarded by the caller. -/
def deployOne (c : Cluster) (obj : KubeObject) (upd : Bool) (kind : String) :
    Except String Unit × Cluster × List Req :=
  match upd with
  | true =>
    ((updateRun c obj true kind).1.map (fun _ => ()),
     (updateRun c obj true kind).2.1, (updateRun c obj true kind).2.2)
  | false =>
    ((createRun c obj kind).1.map (fun _ => ()),
     (createRun c obj kind).2.1, (createRun c obj kind).2.2)

/-- The body of the general pass of `Deploy` for one object: `deploy(obj,
update)`, then, when the object is a replication controller and
`deleteModifiedPods` is set, `deletePods(rc)`, whose error is wrapped as in
the source. -/
def deployStep (c : Cluster) (obj : KubeObject) (upd del : Bool) :
    Except String Unit × Cluster × List Req :=
  let kind := mappingOf obj
  match (deployOne c obj upd kind).1 with
  | .error e =>
      (.error e, (deployOne c obj upd kind).2.1, (deployOne c obj upd kind).2.2)
  | .ok _ =>
    match obj with
    | .rc m spec =>
      match del with
      | true =>
        match (deletePodsRun (deployOne c obj upd kind).2.1 m.nspace spec.selector).1 with
        | .error e =>
            (.error ("could not delete pods for rc `" ++ m.nspace ++ "/" ++ m.name
               ++ "`: " ++ e),
             (deletePodsRun (deployOne c obj upd kind).2.1 m.nspace spec.selector).2.1,
             (deployOne c obj upd kind).2.2
               ++ (deletePodsRun (deployOne c obj upd kind).2.1 m.nspace spec.selector).2.2)
        | .ok _ =>
            (.ok (),
             (deletePodsRun (deployOne c obj upd kind).2.1 m.nspace spec.selector).2.1,
             (deployOne c obj upd kind).2.2
               ++ (deletePodsRun (deployOne c obj upd kind).2.1 m.nspace spec.selector).2.2)
      | false => (.ok (), (deployOne c obj upd kind).2.1, (deployOne c obj upd kind).2.2)
    | _ => (.ok (), (deployOne c obj upd kind).2.1, (deployOne c obj upd kind).2.2)

/-- The general pass of `Deploy`: iterate the bundle in order, skip
namespace objects, abort on the first error. -/
def generalPass (upd del : Bool) :
    Cluster → List KubeObject → Except String Unit × Cluster × List Req
  | c, [] => (.ok (), c, [])
  | c, o :: rest =>
    match isNamespaceObj o with
    | true => generalPass upd del c rest
    | false =>
      match (deployStep c o upd del).1 with
      | .error e => (.error e, (deployStep c o upd del).2.1, (deployStep c o upd del).2.2)
      | .ok _ =>
        ((generalPass upd del (deployStep c o upd del).2.1 rest).1,
         (generalPass upd del (deployStep c o upd del).2.1 rest).2.1,
         (deployStep c o upd del).2.2
           ++ (generalPass upd del (deployStep c o upd del).2.1 rest).2.2)

/-- `Deploy(dep, update, deleteModifiedPods)` up to the convergence
monitor: the namespace pre-pass over the bundle's namespace objects, then
the general pass over the whole bundle.  (The source then calls
`printLoadBalancers` on the bundle's services, modelled separately as
`printLoadBalancersRun`.) -/
def deployObjectsRun (c : Cluster) (dep : List KubeObject) (upd del : Bool) :
    Except String Unit × Cluster × List Req :=
  match (nsPrePass c (objectsOfVersionKind dep "Namespace")).1 with
  | .error e =>
      (.error e, (nsPrePass c (objectsOfVersionKind dep "Namespace")).2.1,
       (nsPrePass c (objectsOfVersionKind dep "Namespace")).2.2)
  | .ok _ =>
    ((generalPass upd del (nsPrePass c (objectsOfVersionKind dep "Namespace")).2.1 dep).1,
     (generalPass upd del (nsPrePass c (objectsOfVersionKind dep "Namespace")).2.1 dep).2.1,
     (nsPrePass c (objectsOfVersionKind dep "Namespace")).2.2
       ++ (generalPass upd del (nsPrePass c (objectsOfVersionKind dep "Namespace")).2.1 dep).2.2)

/-- A service as the convergence monitor sees it.  `printLoadBalancers` is
handed the bundle's `Service` objects and asserts each element to
`*kube.Service` (panicking otherwise); the model takes the asserted form
directly. -/
structure Svc where
  meta : ObjectMeta
  spec : ServiceSpec
  status : ServiceStatus
deriving DecidableEq

def asSvc : KubeObject → Option Svc
  | .service m sp st => some ⟨m, sp, st⟩
  | _ => none

/-- The per-ingress display text: the hostname, with the IP appended
parenthetically when the IP is nonempty, or the IP alone when the hostname
is empty. -/
def ingressHostText (lb : LBIngress) : String :=
  let host := lb.hostname
  if lb.ip.length ≠ 0 then
    if host.length = 0 then lb.ip
    else host ++ " (" ++ lb.ip ++ ")"
  else host

def lbLine (nspace name host : String) : String :=
  "Service '" ++ nspace ++ "/" ++ name ++ "' available at: \t" ++ host

def localkubePortLine (nspace name : String) (p : ServicePort) : String :=
  "'" ++ nspace ++ "/" ++ name ++ "' - " ++ p.portName
    ++ " available on localkube host port:\t " ++ toString p.nodePort

/-- Setting `completed[name] = true` on the completion map, modelled as a
duplicate-free name list. -/
def insertName (n : String) (l : List String) : List String :=
  if l.contains n then l else l ++ [n]

/-- The `done` closure of `printLoadBalancers`: every service of type
LoadBalancer has been completed. -/
def plbDone (svcs : List Svc) (completed : List String) : Bool :=
  svcs.all (fun s =>
    !(s.spec.typ == ServiceType.loadBalancer && !(completed.contains s.meta.name)))

/-- Outcome of processing services within one polling round: either the
updated completion map with the requests issued and lines printed, or a
runtime panic (with what was issued and printed up to it). -/
inductive RoundOut
  | panicked (reqs : List Req) (lines : List String)
  | ok (completed : List String) (reqs : List Req) (lines : List String)
deriving DecidableEq

/-- The body of the polling loop for one incomplete LoadBalancer service:
fetch its live state; on a fetch error the source prints the error and then
dereferences the nil result (`clusterVers.Spec.Ports` under localkube,
`clusterVers.Status.LoadBalancer.Ingress` otherwise), which is a nil
pointer dereference, modelled as `RoundOut.panicked`.  On success, under
localkube the service is completed and each port reported; then each
ingress point completes the service and is reported.  (A stored object that
is not a service would fail decoding; the claims only exercise
service-typed stores, and the model routes that case through the error
path.) -/
def plbService (c : Cluster) (lk : Bool) (completed : List String) (s : Svc) : RoundOut :=
  if s.spec.typ == ServiceType.loadBalancer && !(completed.contains s.meta.name) then
    let req := Req.svcGet s.meta.nspace s.meta.name
    let fetch : Except String Svc :=
      match c.faults req with
      | some e => .error e
      | none =>
        match lookupKey c.live ⟨"Service", s.meta.nspace, s.meta.name⟩ with
        | none => .error ("services \"" ++ s.meta.name ++ "\" not found")
        | some o =>
          match asSvc o with
          | some sv => .ok sv
          | none => .error ("services \"" ++ s.meta.name ++ "\" not found")
    match fetch with
    | .error e =>
        RoundOut.panicked [req]
          ["Error getting service `" ++ s.meta.name ++ "`: " ++ e]
    | .ok clusterVers =>
      let afterLk : List String × List String :=
        if lk then
          (insertName s.meta.name completed,
           clusterVers.spec.ports.map (localkubePortLine s.meta.nspace s.meta.name))
        else (completed, [])
      let completed2 :=
        if clusterVers.status.ingress.isEmpty then afterLk.1
        else insertName s.meta.name afterLk.1
      let lines2 := clusterVers.status.ingress.map
        (fun lb => lbLine s.meta.nspace s.meta.name (ingressHostText lb))
      RoundOut.ok completed2 [req] (afterLk.2 ++ lines2)
  else RoundOut.ok completed [] []

/-- One polling round: process every service in order, threading the
completion map; a panic stops the round. -/
def plbRound (c : Cluster) (lk : Bool) :
    List String → List Svc → RoundOut
  | completed, [] => RoundOut.ok completed [] []
  | completed, s :: rest =>
    match plbService c lk completed s with
    | RoundOut.panicked r l => RoundOut.panicked r l
    | RoundOut.ok completed1 r1 l1 =>
      match plbRound c lk completed1 rest with
      | RoundOut.panicked r2 l2 => RoundOut.panicked (r1 ++ r2) (l1 ++ l2)
      | RoundOut.ok completed2 r2 l2 => RoundOut.ok completed2 (r1 ++ r2) (l1 ++ l2)

/-- Outcome of the monitor: normal return, a runtime panic, or fuel
exhaustion (the source loop is unbounded; `fuelOut` marks runs the fuel did
not cover).  Each carries the requests issued (`Req.sleep` records one
250 ms pause) and the lines printed. -/
inductive PlbResult
  | finished (reqs : List Req) (lines : List String)
  | panicked (reqs : List Req) (lines : List String)
  | fuelOut (reqs : List Req) (lines : List String)
deriving DecidableEq

/-- The polling loop of `printLoadBalancers`: check `done()` first; print
the waiting banner on the first working iteration; run a round; sleep
250 ms; repeat. -/
def plbLoop (c : Cluster) (svcs : List Svc) (lk : Bool) :
    Nat → List String → Bool → List Req → List String → PlbResult
  | 0, completed, _, reqs, lines =>
    if plbDone svcs completed then PlbResult.finished reqs lines
    else PlbResult.fuelOut reqs lines
  | Nat.succ f, completed, first, reqs, lines =>
    if plbDone svcs completed then PlbResult.finished reqs lines
    else
      let lines1 := if first then lines ++ ["Waiting for load balancer deployment..."]
                    else lines
      match plbRound c lk completed svcs with
      | RoundOut.panicked r l => PlbResult.panicked (reqs ++ r) (lines1 ++ l)
      | RoundOut.ok completed1 r l =>
        plbLoop c svcs lk f completed1 false (reqs ++ r ++ [Req.sleep]) (lines1 ++ l)

/-- `printLoadBalancers(client, services, localkube)`: immediate return on
an empty service list, otherwise the polling loop starting from an empty
completion map. -/
def printLoadBalancersRun (fuel : Nat) (c : Cluster) (services : List Svc) (lk : Bool) :
    PlbResult :=
  if services.isEmpty then PlbResult.finished [] []
  else plbLoop c services lk fuel [] true [] []

/-! ## Helper lemmas -/

deriving instance DecidableEq for Except

def isGetReq : Req → Bool
  | .getReq _ _ _ _ => true
  | _ => false

def reqExportFlag : Req → Option Bool
  | .getReq _ _ _ f => some f
  | _ => none

theorem strLength_eq_zero (s : String) : s.length = 0 ↔ s = "" := by
  cases s with
  | mk cs => simp [String.ext_iff, List.length_eq_zero]

theorem hasSuffixStr_intro (s t : String) (pre : List Char) (h : s.data = pre ++ t.data) :
    hasSuffixStr s t = true := by
  simp only [hasSuffixStr, List.isSuffixOf, h]
  simp [List.isPrefixOf_iff_prefix]

theorem meta_setResourceVersion (o : KubeObject) (v : String) :
    (o.setResourceVersion v).meta = ⟨o.meta.name, o.meta.nspace, v, o.meta.labels⟩ := by
  cases o <;> simp [KubeObject.setResourceVersion, KubeObject.meta]

theorem copyImmutables_second (l o : KubeObject) (v₁ v₂ : String) :
    copyImmutables ((copyImmutables l (o.setResourceVersion v₁)).setResourceVersion v₂)
        (o.setResourceVersion v₂)
      = (copyImmutables l (o.setResourceVersion v₁)).setResourceVersion v₂ := by
  cases l <;> cases o <;> simp [copyImmutables, KubeObject.setResourceVersion]

theorem lookupKey_updateAssoc (l : List (Key × KubeObject)) (k : Key) (v : KubeObject)
    (h : (lookupKey l k).isSome) : lookupKey (updateAssoc l k v) k = some v := by
  induction l with
  | nil => simp [lookupKey] at h
  | cons p rest ih =>
    by_cases hp : p.1 = k
    · simp [lookupKey, updateAssoc, hp]
    · simp only [lookupKey, updateAssoc, hp, if_false, if_neg hp] at h ⊢
      exact ih h

theorem updateRun_found_eq (c : Cluster) (obj deployed : KubeObject) (create : Bool)
    (kind : String)
    (hF : c.faults (Req.getReq kind obj.meta.nspace obj.meta.name true) = none)
    (hLive : lookupKey c.live ⟨kind, obj.meta.nspace, obj.meta.name⟩ = some deployed)
    (hEq : copyImmutables deployed (obj.setResourceVersion deployed.meta.resourceVersion)
      = deployed) :
    updateRun c obj create kind
      = (Except.ok deployed, c, [Req.getReq kind obj.meta.nspace obj.meta.name true]) := by
  simp [updateRun, getRun, hF, hLive, hEq]

/-- The cluster after the server applies a patch at a key: the stored
object is replaced and the resource-version counter advances. -/
def patchedCluster (c : Cluster) (k : Key) (v : KubeObject) : Cluster :=
  ⟨updateAssoc c.live k v, c.faults, c.nextRV + 1⟩

/-- The desired object as sent by the patch path of `update`: resource
version and immutable fields copied from the live object, stored under a
fresh server-assigned resource version. -/
def patchResult (deployed obj : KubeObject) (rv : Nat) : KubeObject :=
  (copyImmutables deployed
    (obj.setResourceVersion deployed.meta.resourceVersion)).setResourceVersion (toString rv)

theorem updateRun_found_patch (c : Cluster) (obj deployed : KubeObject) (create : Bool)
    (kind : String)
    (hF : c.faults (Req.getReq kind obj.meta.nspace obj.meta.name true) = none)
    (hP : c.faults (Req.patchReq kind obj.meta.nspace obj.meta.name) = none)
    (hLive : lookupKey c.live ⟨kind, obj.meta.nspace, obj.meta.name⟩ = some deployed)
    (hNe : copyImmutables deployed (obj.setResourceVersion deployed.meta.resourceVersion)
      ≠ deployed) :
    updateRun c obj create kind
      = (Except.ok (patchResult deployed obj c.nextRV),
         patchedCluster c ⟨kind, obj.meta.nspace, obj.meta.name⟩
           (patchResult deployed obj c.nextRV),
         [Req.getReq kind obj.meta.nspace obj.meta.name true,
          Req.patchReq kind obj.meta.nspace obj.meta.name]) := by
  simp [updateRun, getRun, hF, hP, hLive, hNe, patchedCluster, patchResult]

theorem getRun_shape (c : Cluster) (ns n : String) (f : Bool) (kind : String) :
    (getRun c ns n f kind).2.1 = c ∧ (getRun c ns n f kind).2.2 = [Req.getReq kind ns n f] := by
  unfold getRun
  rcases h : c.faults (Req.getReq kind ns n f) with _ | e
  · rcases h2 : lookupKey c.live ⟨kind, ns, n⟩ with _ | o <;> simp [h, h2]
  · simp [h]

theorem createRun_shape (c : Cluster) (obj : KubeObject) (kind : String) :
    (createRun c obj kind).2.2 = [Req.createReq kind obj.meta.nspace obj.meta.name] := by
  unfold createRun
  rcases h : c.faults (Req.createReq kind obj.meta.nspace obj.meta.name) with _ | e
  · rcases h2 : lookupKey c.live ⟨kind, obj.meta.nspace, obj.meta.name⟩ with _ | o <;>
      simp [h, h2]
  · simp [h]

theorem updateRun_trace_mem (c : Cluster) (obj : KubeObject) (create : Bool) (kind : String) :
    ∀ r ∈ (updateRun c obj create kind).2.2,
      r = Req.getReq kind obj.meta.nspace obj.meta.name true
      ∨ r = Req.createReq kind obj.meta.nspace obj.meta.name
      ∨ r = Req.patchReq kind obj.meta.nspace obj.meta.name := by
  intro r hr
  unfold updateRun at hr
  simp only [] at hr
  have hshape := getRun_shape c obj.meta.nspace obj.meta.name true kind
  rcases hG : getRun c obj.meta.nspace obj.meta.name true kind with ⟨getRes, c1, r1⟩
  rw [hG] at hshape hr
  simp only at hshape hr
  obtain ⟨hc1, hr1⟩ := hshape
  rw [hc1, hr1] at hr
  rcases getRes with e | deployed
  · simp only at hr
    split at hr
    · rcases hC : createRun c obj kind with ⟨res2, c2, r2⟩
      have hr2 := createRun_shape c obj kind
      rw [hC] at hr hr2
      simp only at hr hr2
      subst hr2
      simp at hr
      tauto
    · simp at hr
      tauto
  · simp only at hr
    split at hr
    · simp at hr
      tauto
    · rcases hp : c.faults (Req.patchReq kind obj.meta.nspace obj.meta.name) with _ | e2 <;>
        simp only [hp] at hr <;> simp at hr <;> tauto

theorem hasSuffixStr_append_right (a b t : String) (h : hasSuffixStr b t = true) :
    hasSuffixStr (a ++ b) t = true := by
  simp only [hasSuffixStr, List.isSuffixOf, String.data_append] at h ⊢
  simp only [List.isPrefixOf_iff_prefix, List.reverse_prefix] at h ⊢
  exact h.trans (List.suffix_append a.data b.data)

theorem alreadyExists_nsMsg (n : String) :
    alreadyExists (some ("namespaces \"" ++ n ++ "\" already exists")) = true :=
  hasSuffixStr_append_right ("namespaces \"" ++ n) "\" already exists" "already exists"
    (by decide)

theorem nsCreateOp_shape (c : Cluster) (o : KubeObject) :
    (nsCreateOp c o).2.2 = [Req.nsCreate o.meta.name]
    ∧ (nsCreateOp c o).2.1.faults = c.faults := by
  unfold nsCreateOp
  rcases h : c.faults (Req.nsCreate o.meta.name) with _ | e
  · rcases h2 : lookupKey c.live ⟨"Namespace", "", o.meta.name⟩ with _ | x <;> simp [h, h2]
  · simp [h]

theorem nsPrePass_trace_mem (l : List KubeObject) :
    ∀ c : Cluster, ∀ r ∈ (nsPrePass c l).2.2, isNsCreateReq r = true := by
  induction l with
  | nil =>
    intro c r hr
    simp [nsPrePass] at hr
  | cons o rest ih =>
    intro c r hr
    unfold nsPrePass at hr
    have hs := (nsCreateOp_shape c o).1
    rcases hOp : nsCreateOp c o with ⟨res, c1, r1⟩
    rw [hOp] at hr hs
    simp only at hr hs
    rw [hs] at hr
    rcases res with e | u <;> simp only at hr
    · split at hr
      · rcases hP : nsPrePass c1 rest with ⟨res2, c2, r2⟩
        rw [hP] at hr
        simp only at hr
        simp only [List.cons_append, List.nil_append, List.mem_cons] at hr
        rcases hr with rfl | hr
        · rfl
        · have := ih c1 r
          rw [hP] at this
          exact this hr
      · simp only [List.mem_singleton] at hr
        subst hr
        rfl
    · rcases hP : nsPrePass c1 rest with ⟨res2, c2, r2⟩
      rw [hP] at hr
      simp only at hr
      simp only [List.cons_append, List.nil_append, List.mem_cons] at hr
      rcases hr with rfl | hr
      · rfl
      · have := ih c1 r
        rw [hP] at this
        exact this hr

theorem nsPrePass_noFaults (l : List KubeObject) :
    ∀ c : Cluster, (∀ r, c.faults r = none) →
      (nsPrePass c l).1 = Except.ok ()
      ∧ (nsPrePass c l).2.2 = l.map (fun o => Req.nsCreate o.meta.name)
      ∧ ∀ r, (nsPrePass c l).2.1.faults r = none := by
  induction l with
  | nil =>
    intro c hNF
    exact ⟨rfl, rfl, hNF⟩
  | cons o rest ih =>
    intro c hNF
    unfold nsPrePass
    rcases h2 : lookupKey c.live ⟨"Namespace", "", o.meta.name⟩ with _ | x
    · have hOp : nsCreateOp c o
          = (Except.ok (),
             ⟨c.live ++ [(⟨"Namespace", "", o.meta.name⟩,
                o.setResourceVersion (toString c.nextRV))], c.faults, c.nextRV + 1⟩,
             [Req.nsCreate o.meta.name]) := by
        unfold nsCreateOp
        simp [hNF, h2]
      rw [hOp]
      have hih := ih ⟨c.live ++ [(⟨"Namespace", "", o.meta.name⟩,
        o.setResourceVersion (toString c.nextRV))], c.faults, c.nextRV + 1⟩ hNF
      rcases hP : nsPrePass ⟨c.live ++ [(⟨"Namespace", "", o.meta.name⟩,
        o.setResourceVersion (toString c.nextRV))], c.faults, c.nextRV + 1⟩ rest
        with ⟨res2, c2, r2⟩
      rw [hP] at hih
      simp only at hih ⊢
      rw [hP]
      simp only
      obtain ⟨hres, htr, hfl⟩ := hih
      subst hres
      subst htr
      exact ⟨rfl, rfl, hfl⟩
    · have hOp : nsCreateOp c o
          = (Except.error ("namespaces \"" ++ o.meta.name ++ "\" already exists"), c,
             [Req.nsCreate o.meta.name]) := by
        unfold nsCreateOp
        simp [hNF, h2]
      rw [hOp]
      simp only [alreadyExists_nsMsg o.meta.name, if_true]
      have hih := ih c hNF
      rcases hP : nsPrePass c rest with ⟨res2, c2, r2⟩
      rw [hP] at hih
      simp only at hih ⊢
      try rw [hP]
      try simp only
      obtain ⟨hres, htr, hfl⟩ := hih
      subst hres
      subst htr
      exact ⟨rfl, rfl, hfl⟩

theorem deletePodsFold_trace_mem (ps : List KubeObject) :
    ∀ c : Cluster, ∀ r ∈ (deletePodsFold c ps).2.2, isPodDeleteReq r = true := by
  induction ps with
  | nil =>
    intro c r hr
    simp [deletePodsFold] at hr
  | cons p rest ih =>
    intro c r hr
    unfold deletePodsFold at hr
    simp only [] at hr
    rcases h : c.faults (Req.podDelete p.meta.nspace p.meta.name) with _ | e <;>
      simp only [h] at hr
    · rcases hF : deletePodsFold
        ⟨removeKey c.live ⟨"Pod", p.meta.nspace, p.meta.name⟩, c.faults, c.nextRV⟩ rest
        with ⟨res2, c2, r2⟩
      rw [hF] at hr
      simp only [List.mem_cons] at hr
      rcases hr with rfl | hr
      · rfl
      · have := ih ⟨removeKey c.live ⟨"Pod", p.meta.nspace, p.meta.name⟩, c.faults, c.nextRV⟩ r
        rw [hF] at this
        exact this hr
    · simp only [List.mem_singleton] at hr
      subst hr
      rfl

theorem deletePodsRun_trace_mem (c : Cluster) (ns : String) (sel : List (String × String)) :
    ∀ r ∈ (deletePodsRun c ns sel).2.2, isPodListReq r = true ∨ isPodDeleteReq r = true := by
  intro r hr
  unfold deletePodsRun at hr
  simp only [] at hr
  rcases h : c.faults (Req.podList ns sel) with _ | e <;> simp only [h] at hr
  · rcases hF : deletePodsFold c (podsMatching c.live ns sel) with ⟨res2, c2, r2⟩
    rw [hF] at hr
    simp only [List.mem_cons] at hr
    rcases hr with rfl | hr
    · exact Or.inl rfl
    · refine Or.inr ?_
      have := deletePodsFold_trace_mem (podsMatching c.live ns sel) c r
      rw [hF] at this
      exact this hr
  · simp only [List.mem_singleton] at hr
    subst hr
    exact Or.inl rfl

theorem deployOne_trace_mem (c : Cluster) (obj : KubeObject) (upd : Bool) (kind : String) :
    ∀ r ∈ (deployOne c obj upd kind).2.2,
      r = Req.getReq kind obj.meta.nspace obj.meta.name true
      ∨ r = Req.createReq kind obj.meta.nspace obj.meta.name
      ∨ r = Req.patchReq kind obj.meta.nspace obj.meta.name := by
  intro r hr
  cases upd
  · have hs := createRun_shape c obj kind
    simp only [deployOne] at hr
    rw [hs] at hr
    simp only [List.mem_singleton] at hr
    subst hr
    tauto
  · simp only [deployOne] at hr
    exact updateRun_trace_mem c obj true kind r hr

theorem deployStep_trace_mem (c : Cluster) (obj : KubeObject) (upd del : Bool) :
    ∀ r ∈ (deployStep c obj upd del).2.2,
      r = Req.getReq (mappingOf obj) obj.meta.nspace obj.meta.name true
      ∨ r = Req.createReq (mappingOf obj) obj.meta.nspace obj.meta.name
      ∨ r = Req.patchReq (mappingOf obj) obj.meta.nspace obj.meta.name
      ∨ isPodListReq r = true ∨ isPodDeleteReq r = true := by
  intro r hr
  unfold deployStep at hr
  simp only [] at hr
  rcases hres : (deployOne c obj upd (mappingOf obj)).1 with e | v <;>
    rw [hres] at hr <;> simp only [] at hr
  · rcases deployOne_trace_mem c obj upd (mappingOf obj) r hr with h | h | h <;> tauto
  · split at hr
    · split at hr
      · split at hr <;> simp only [] at hr <;> rw [List.mem_append] at hr <;>
          rcases hr with hr | hr
        · rcases deployOne_trace_mem c _ upd _ r hr with h | h | h <;> tauto
        · rcases deletePodsRun_trace_mem _ _ _ r hr with h | h <;> tauto
        · rcases deployOne_trace_mem c _ upd _ r hr with h | h | h <;> tauto
        · rcases deletePodsRun_trace_mem _ _ _ r hr with h | h <;> tauto
      · simp only [] at hr
        rcases deployOne_trace_mem c _ upd _ r hr with h | h | h <;> tauto
    · simp only [] at hr
      rcases deployOne_trace_mem c _ upd _ r hr with h | h | h <;> tauto

theorem deployStep_no_nsCreate (c : Cluster) (obj : KubeObject) (upd del : Bool) :
    ∀ r ∈ (deployStep c obj upd del).2.2, isNsCreateReq r = false := by
  intro r hr
  rcases deployStep_trace_mem c obj upd del r hr with rfl | rfl | rfl | h | h
  · rfl
  · rfl
  · rfl
  · cases r <;> simp_all [isPodListReq, isNsCreateReq]
  · cases r <;> simp_all [isPodDeleteReq, isNsCreateReq]

theorem generalPass_no_nsCreate (upd del : Bool) (l : List KubeObject) :
    ∀ c : Cluster, ∀ r ∈ (generalPass upd del c l).2.2, isNsCreateReq r = false := by
  induction l with
  | nil =>
    intro c r hr
    simp [generalPass] at hr
  | cons o rest ih =>
    intro c r hr
    unfold generalPass at hr
    cases ho : isNamespaceObj o <;> rw [ho] at hr <;> simp only [] at hr
    · rcases hs : (deployStep c o upd del).1 with e | u <;>
        rw [hs] at hr <;> simp only [] at hr
      · exact deployStep_no_nsCreate c o upd del r hr
      · rw [List.mem_append] at hr
        rcases hr with hr | hr
        · exact deployStep_no_nsCreate c o upd del r hr
        · exact ih (deployStep c o upd del).2.1 r hr
    · exact ih c r hr

theorem generalPass_skips_namespaces (upd del : Bool) (c : Cluster) (o : KubeObject)
    (rest : List KubeObject) (ho : isNamespaceObj o = true) :
    generalPass upd del c (o :: rest) = generalPass upd del c rest := by
  conv_lhs => rw [generalPass]
  rw [ho]

theorem deletePodsFold_noFaults (ps : List KubeObject) :
    ∀ c : Cluster, (∀ r, c.faults r = none) →
      (deletePodsFold c ps).1 = Except.ok ()
      ∧ (deletePodsFold c ps).2.2
        = ps.map (fun p => Req.podDelete p.meta.nspace p.meta.name)
      ∧ ∀ r, (deletePodsFold c ps).2.1.faults r = none := by
  induction ps with
  | nil =>
    intro c h
    exact ⟨rfl, rfl, h⟩
  | cons p rest ih =>
    intro c h
    unfold deletePodsFold
    simp only [h]
    have hih := ih ⟨removeKey c.live ⟨"Pod", p.meta.nspace, p.meta.name⟩, c.faults,
      c.nextRV⟩ h
    rcases hF : deletePodsFold ⟨removeKey c.live ⟨"Pod", p.meta.nspace, p.meta.name⟩,
      c.faults, c.nextRV⟩ rest with ⟨res2, c2, r2⟩
    rw [hF] at hih
    simp only at hih ⊢
    obtain ⟨h1, h2, h3⟩ := hih
    subst h1
    subst h2
    exact ⟨rfl, rfl, h3⟩

theorem deletePodsRun_noFaults (c : Cluster) (ns : String) (sel : List (String × String))
    (h : ∀ r, c.faults r = none) :
    (deletePodsRun c ns sel).1 = Except.ok ()
    ∧ (deletePodsRun c ns sel).2.2
      = Req.podList ns sel
        :: (podsMatching c.live ns sel).map
            (fun p => Req.podDelete p.meta.nspace p.meta.name) := by
  unfold deletePodsRun
  simp only [h]
  have hF := deletePodsFold_noFaults (podsMatching c.live ns sel) c h
  rcases hE : deletePodsFold c (podsMatching c.live ns sel) with ⟨res2, c2, r2⟩
  rw [hE] at hF
  simp only at hF ⊢
  obtain ⟨h1, h2, _⟩ := hF
  subst h1
  subst h2
  exact ⟨rfl, rfl⟩

theorem deployStep_no_cleanup_flag (c : Cluster) (obj : KubeObject) (upd : Bool) :
    ∀ r ∈ (deployStep c obj upd false).2.2,
      isPodDeleteReq r = false ∧ isPodListReq r = false := by
  intro r hr
  unfold deployStep at hr
  simp only [] at hr
  rcases hres : (deployOne c obj upd (mappingOf obj)).1 with e | v <;>
    rw [hres] at hr <;> simp only [] at hr
  · rcases deployOne_trace_mem c obj upd (mappingOf obj) r hr with rfl | rfl | rfl <;>
      exact ⟨rfl, rfl⟩
  · split at hr <;> simp only [] at hr <;>
      rcases deployOne_trace_mem c _ upd _ r hr with rfl | rfl | rfl <;> exact ⟨rfl, rfl⟩

theorem generalPass_no_cleanup_flag (upd : Bool) (l : List KubeObject) :
    ∀ c : Cluster, ∀ r ∈ (generalPass upd false c l).2.2, isPodDeleteReq r = false := by
  induction l with
  | nil =>
    intro c r hr
    simp [generalPass] at hr
  | cons o rest ih =>
    intro c r hr
    unfold generalPass at hr
    cases ho : isNamespaceObj o <;> rw [ho] at hr <;> simp only [] at hr
    · rcases hs : (deployStep c o upd false).1 with e | u <;>
        rw [hs] at hr <;> simp only [] at hr
      · exact (deployStep_no_cleanup_flag c o upd r hr).1
      · rw [List.mem_append] at hr
        rcases hr with hr | hr
        · exact (deployStep_no_cleanup_flag c o upd r hr).1
        · exact ih (deployStep c o upd false).2.1 r hr
    · exact ih c r hr

theorem deployStep_not_rc (c : Cluster) (obj : KubeObject) (upd del : Bool)
    (hrc : isRCObj obj = false) :
    ∀ r ∈ (deployStep c obj upd del).2.2, isPodDeleteReq r = false := by
  intro r hr
  unfold deployStep at hr
  simp only [] at hr
  rcases hres : (deployOne c obj upd (mappingOf obj)).1 with e | v <;>
    rw [hres] at hr <;> simp only [] at hr
  · rcases deployOne_trace_mem c obj upd (mappingOf obj) r hr with rfl | rfl | rfl <;> rfl
  · split at hr
    · simp [isRCObj] at hrc
    · simp only [] at hr
      rcases deployOne_trace_mem c _ upd _ r hr with rfl | rfl | rfl <;> rfl

theorem deployStep_rc_deploy_err (c : Cluster) (m : ObjectMeta) (spec : RCSpec)
    (upd del : Bool) (e : String)
    (hE : (deployOne c (KubeObject.rc m spec) upd
      (mappingOf (KubeObject.rc m spec))).1 = Except.error e) :
    deployStep c (KubeObject.rc m spec) upd del
      = (Except.error e,
         (deployOne c (KubeObject.rc m spec) upd (mappingOf (KubeObject.rc m spec))).2.1,
         (deployOne c (KubeObject.rc m spec) upd (mappingOf (KubeObject.rc m spec))).2.2) := by
  unfold deployStep
  simp only []
  rw [hE]

theorem deployStep_rc_del_trace (c : Cluster) (m : ObjectMeta) (spec : RCSpec)
    (upd : Bool)
    (hOk : (deployOne c (KubeObject.rc m spec) upd
      (mappingOf (KubeObject.rc m spec))).1 = Except.ok ()) :
    (deployStep c (KubeObject.rc m spec) upd true).2.2
      = (deployOne c (KubeObject.rc m spec) upd (mappingOf (KubeObject.rc m spec))).2.2
        ++ (deletePodsRun
            (deployOne c (KubeObject.rc m spec) upd (mappingOf (KubeObject.rc m spec))).2.1
            m.nspace spec.selector).2.2 := by
  unfold deployStep
  simp only []
  rw [hOk]
  rcases hd : (deletePodsRun
      (deployOne c (KubeObject.rc m spec) upd (mappingOf (KubeObject.rc m spec))).2.1
      m.nspace spec.selector).1 with e | u <;> rfl

theorem deployStep_rc_del_err (c : Cluster) (m : ObjectMeta) (spec : RCSpec)
    (upd : Bool) (e : String)
    (hOk : (deployOne c (KubeObject.rc m spec) upd
      (mappingOf (KubeObject.rc m spec))).1 = Except.ok ())
    (hd : (deletePodsRun
        (deployOne c (KubeObject.rc m spec) upd (mappingOf (KubeObject.rc m spec))).2.1
        m.nspace spec.selector).1 = Except.error e) :
    (deployStep c (KubeObject.rc m spec) upd true).1
      = Except.error ("could not delete pods for rc `" ++ m.nspace ++ "/" ++ m.name
          ++ "`: " ++ e) := by
  unfold deployStep
  simp only []
  rw [hOk, hd]

theorem deployStep_rc_del_ok (c : Cluster) (m : ObjectMeta) (spec : RCSpec)
    (upd : Bool)
    (hOk : (deployOne c (KubeObject.rc m spec) upd
      (mappingOf (KubeObject.rc m spec))).1 = Except.ok ())
    (hd : (deletePodsRun
        (deployOne c (KubeObject.rc m spec) upd (mappingOf (KubeObject.rc m spec))).2.1
        m.nspace spec.selector).1 = Except.ok ()) :
    (deployStep c (KubeObject.rc m spec) upd true).1 = Except.ok () := by
  unfold deployStep
  simp only []
  rw [hOk, hd]

/-! ## Shared concrete fixtures -/

def svcLive : KubeObject :=
  .service ⟨"web", "default", "5", [("app", "web")]⟩
    ⟨.clusterIPType, "10.0.0.1", []⟩ ⟨[]⟩

def svcDesired : KubeObject :=
  .service ⟨"web", "default", "", [("app", "web2")]⟩
    ⟨.clusterIPType, "10.0.0.9", []⟩ ⟨[]⟩

def noFaults : Req → Option String := fun _ => none

def baseCluster : Cluster := ⟨[(⟨"Service", "default", "web"⟩, svcLive)], noFaults, 7⟩

/-! ## Claims -/

/-- C1: For every desired object applied in update mode, if after copying
the live resource version and the designated immutable fields onto the
desired object the desired object is deep-equal to the live object, then
`update` issues no patch request (the cluster is unchanged, the trace holds
only the fetch) and returns the live object unchanged; and when the
post-copy objects differ, applying the same desired object twice against a
drift-free cluster issues exactly one patch request on the first call and
zero on the second. -/
theorem update_idempotent (c : Cluster) (obj deployed : KubeObject) (kind : String)
    (hNF : ∀ r, c.faults r = none)
    (hLive : lookupKey c.live ⟨kind, obj.meta.nspace, obj.meta.name⟩ = some deployed) :
    (copyImmutables deployed (obj.setResourceVersion deployed.meta.resourceVersion)
        = deployed →
      updateRun c obj true kind
        = (Except.ok deployed, c, [Req.getReq kind obj.meta.nspace obj.meta.name true]))
    ∧ (copyImmutables deployed (obj.setResourceVersion deployed.meta.resourceVersion)
        ≠ deployed →
      patchCount (updateRun c obj true kind).2.2 = 1
        ∧ patchCount (updateRun (updateRun c obj true kind).2.1 obj true kind).2.2 = 0) := by
  constructor
  · intro hEq
    exact updateRun_found_eq c obj deployed true kind (hNF _) hLive hEq
  · intro hNe
    have h1 := updateRun_found_patch c obj deployed true kind (hNF _) (hNF _) hLive hNe
    have hLive2 : lookupKey
        (patchedCluster c ⟨kind, obj.meta.nspace, obj.meta.name⟩
          (patchResult deployed obj c.nextRV)).live
        ⟨kind, obj.meta.nspace, obj.meta.name⟩
        = some (patchResult deployed obj c.nextRV) := by
      apply lookupKey_updateAssoc
      rw [hLive]; rfl
    have hEq2 : copyImmutables (patchResult deployed obj c.nextRV)
        (obj.setResourceVersion (patchResult deployed obj c.nextRV).meta.resourceVersion)
        = patchResult deployed obj c.nextRV := by
      rw [patchResult, meta_setResourceVersion]
      exact copyImmutables_second deployed obj deployed.meta.resourceVersion
        (toString c.nextRV)
    have h2 := updateRun_found_eq
      (patchedCluster c ⟨kind, obj.meta.nspace, obj.meta.name⟩
        (patchResult deployed obj c.nextRV))
      obj (patchResult deployed obj c.nextRV) true kind (hNF _) hLive2 hEq2
    constructor
    · rw [h1]
      simp [patchCount, isPatchReq]
    · have hc : (updateRun c obj true kind).2.1
          = patchedCluster c ⟨kind, obj.meta.nspace, obj.meta.name⟩
            (patchResult deployed obj c.nextRV) := by rw [h1]
      rw [hc, h2]
      simp [patchCount, isPatchReq]

theorem update_idempotent_witness :
    patchCount (updateRun baseCluster svcDesired true "Service").2.2 = 1
    ∧ patchCount (updateRun (updateRun baseCluster svcDesired true "Service").2.1
        svcDesired true "Service").2.2 = 0 :=
  (update_idempotent baseCluster svcDesired svcLive "Service"
    (fun _ => rfl) (by decide)).2 (by decide)

/-- C4 counterexample: at a concrete update of an existing service, the
only fetch request in the trace carries the export parameter enabled, so
the live object for mutation is not fetched with export mode disabled. -/
theorem update_fetch_export_cex :
    Req.getReq "Service" "default" "web" true
        ∈ (updateRun baseCluster svcDesired true "Service").2.2
    ∧ ∀ r ∈ (updateRun baseCluster svcDesired true "Service").2.2,
        r ≠ Req.getReq "Service" "default" "web" false := by decide

/-- C4 (amended): in update mode the engine fetches the live object for
mutation with export mode enabled: every fetch request issued by `update`
carries the export parameter set to true. -/
theorem update_fetch_export_enabled (c : Cluster) (obj : KubeObject) (create : Bool)
    (kind : String) (r : Req) (hr : r ∈ (updateRun c obj create kind).2.2)
    (hg : isGetReq r = true) : reqExportFlag r = some true := by
  rcases updateRun_trace_mem c obj create kind r hr with h | h | h <;>
    subst h <;> simp_all [isGetReq, reqExportFlag]

theorem update_fetch_export_enabled_witness :
    reqExportFlag (Req.getReq "Service" "default" "web" true) = some true :=
  update_fetch_export_enabled baseCluster svcDesired true "Service"
    (Req.getReq "Service" "default" "web" true) (by decide) (by decide)

/-- C5: during update a fetch failure classified as not-found (with the
create fallback enabled, as `Deploy` always passes) is absorbed and
converted into a create, visible to the caller as the create's outcome and
as a success when the create succeeds, while every fetch failure not
classified as not-found aborts the update with that error; the
classification is decided on every error value and a nil error is never
classified as not-found. -/
theorem update_notfound_to_create (c : Cluster) (obj : KubeObject) (kind e : String)
    (hF : c.faults (Req.getReq kind obj.meta.nspace obj.meta.name true) = some e) :
    doesNotExist none = false
    ∧ (∀ s, doesNotExist (some s) = hasSuffixStr s "not found")
    ∧ (doesNotExist (some (resourceError "get" obj.meta.nspace obj.meta.name kind e)) = true →
        updateRun c obj true kind
          = ((createRun c obj kind).1, (createRun c obj kind).2.1,
             Req.getReq kind obj.meta.nspace obj.meta.name true :: (createRun c obj kind).2.2))
    ∧ (doesNotExist (some (resourceError "get" obj.meta.nspace obj.meta.name kind e)) = false →
        updateRun c obj true kind
          = (Except.error (resourceError "get" obj.meta.nspace obj.meta.name kind e), c,
             [Req.getReq kind obj.meta.nspace obj.meta.name true]))
    ∧ (doesNotExist (some (resourceError "get" obj.meta.nspace obj.meta.name kind e)) = true →
        c.faults (Req.createReq kind obj.meta.nspace obj.meta.name) = none →
        lookupKey c.live ⟨kind, obj.meta.nspace, obj.meta.name⟩ = none →
        (updateRun c obj true kind).1
          = Except.ok (obj.setResourceVersion (toString c.nextRV))) := by
  refine ⟨rfl, fun s => rfl, ?_, ?_, ?_⟩
  · intro hT
    simp [updateRun, getRun, hF, hT, createRun]
  · intro hFalse
    simp [updateRun, getRun, hF, hFalse]
  · intro hT hC hNone
    simp [updateRun, getRun, createRun, hF, hT, hC, hNone]

def c5NotFoundFault : Req → Option String :=
  fun r => if r = Req.getReq "Service" "default" "web" true
    then some "services \"web\" not found" else none

def c5OtherFault : Req → Option String :=
  fun r => if r = Req.getReq "Service" "default" "web" true then some "boom" else none

def c5aCluster : Cluster := ⟨[], c5NotFoundFault, 3⟩

def c5bCluster : Cluster := ⟨[], c5OtherFault, 3⟩

theorem update_notfound_to_create_witness :
    updateRun c5aCluster svcDesired true "Service"
      = ((createRun c5aCluster svcDesired "Service").1,
         (createRun c5aCluster svcDesired "Service").2.1,
         Req.getReq "Service" "default" "web" true
           :: (createRun c5aCluster svcDesired "Service").2.2)
    ∧ updateRun c5bCluster svcDesired true "Service"
      = (Except.error (resourceError "get" "default" "web" "Service" "boom"), c5bCluster,
         [Req.getReq "Service" "default" "web" true]) :=
  ⟨(update_notfound_to_create c5aCluster svcDesired "Service"
      "services \"web\" not found" (by decide)).2.2.1 (by decide),
   (update_notfound_to_create c5bCluster svcDesired "Service"
      "boom" (by decide)).2.2.2.1 (by decide)⟩

/-- C6: for a service, `update` copies the server-assigned ClusterIP from
the live object onto the desired object before diffing, and whatever value
the desired object specified for that field, the object resulting from the
update carries the live ClusterIP. -/
theorem update_preserves_clusterIP (c : Cluster) (m lm : ObjectMeta)
    (sp lsp : ServiceSpec) (st lst : ServiceStatus)
    (hNF : ∀ r, c.faults r = none)
    (hLive : lookupKey c.live ⟨"Service", m.nspace, m.name⟩
      = some (KubeObject.service lm lsp lst)) :
    copyImmutables (KubeObject.service lm lsp lst)
        ((KubeObject.service m sp st).setResourceVersion lm.resourceVersion)
      = KubeObject.service ⟨m.name, m.nspace, lm.resourceVersion, m.labels⟩
          ⟨sp.typ, lsp.clusterIP, sp.ports⟩ st
    ∧ ∀ res, (updateRun c (KubeObject.service m sp st) true "Service").1 = Except.ok res →
        svcClusterIP res = some lsp.clusterIP := by
  refine ⟨rfl, ?_⟩
  intro res hres
  by_cases hEq : copyImmutables (KubeObject.service lm lsp lst)
      ((KubeObject.service m sp st).setResourceVersion
        (KubeObject.service lm lsp lst).meta.resourceVersion)
      = KubeObject.service lm lsp lst
  · rw [updateRun_found_eq c (KubeObject.service m sp st) (KubeObject.service lm lsp lst)
      true "Service" (hNF _) hLive hEq] at hres
    have h' : KubeObject.service lm lsp lst = res := by
      simpa using hres
    rw [← h']
    rfl
  · rw [updateRun_found_patch c (KubeObject.service m sp st) (KubeObject.service lm lsp lst)
      true "Service" (hNF _) (hNF _) hLive hEq] at hres
    have h' : patchResult (KubeObject.service lm lsp lst)
        (KubeObject.service m sp st) c.nextRV = res := by
      simpa using hres
    rw [← h']
    rfl

theorem update_preserves_clusterIP_witness :
    svcClusterIP (KubeObject.service ⟨"web", "default", "7", [("app", "web2")]⟩
      ⟨.clusterIPType, "10.0.0.1", []⟩ ⟨[]⟩) = some "10.0.0.1" :=
  (update_preserves_clusterIP baseCluster
      ⟨"web", "default", "", [("app", "web2")]⟩ ⟨"web", "default", "5", [("app", "web")]⟩
      ⟨.clusterIPType, "10.0.0.9", []⟩ ⟨.clusterIPType, "10.0.0.1", []⟩ ⟨[]⟩ ⟨[]⟩
      (fun _ => rfl) (by decide)).2
    (KubeObject.service ⟨"web", "default", "7", [("app", "web2")]⟩
      ⟨.clusterIPType, "10.0.0.1", []⟩ ⟨[]⟩) (by decide)

def c7Fault : Req → Option String :=
  fun r => if r = Req.createReq "Service" "prod" "mydb" then some "boom" else none

def c7Obj : KubeObject := .service ⟨"mydb", "prod", "", []⟩ ⟨.clusterIPType, "", []⟩ ⟨[]⟩

def c7GetFault : Req → Option String :=
  fun r => if r = Req.getReq "Service" "prod" "mydb" false then some "boom" else none

/-- C7: the wrap of a failed create places the object's name in the
namespace slot of `resourceError` and the namespace in the name slot
(`resourceError("create", meta.GetName(), meta.GetNamespace(), ...)`), so
the message reads 'name/namespace' where the format is
'namespace/name' — the contextual fields do not occupy their stated roles.
The get wrap at the symmetric input shows the intended placement. -/
theorem create_error_swaps_fields :
    (createRun ⟨[], c7Fault, 0⟩ c7Obj "Service").1
      = Except.error "could not create 'mydb/prod' (Service): boom"
    ∧ (getRun ⟨[], c7GetFault, 0⟩ "prod" "mydb" false "Service").1
      = Except.error "could not get 'prod/mydb' (Service): boom"
    ∧ resourceError "create" "prod" "mydb" "Service" "boom"
      ≠ "could not create 'mydb/prod' (Service): boom" := by decide

/-- C2: the trace of `Deploy` up to the monitor splits into a prefix of
namespace creates followed by requests none of which is a namespace
create, for every bundle order; with no injected faults the prefix
attempts a create for every Namespace object of the bundle; an
"already exists" error during a namespace create is absorbed and the
pre-pass continues; any other namespace-create error aborts the pre-pass,
and a failed pre-pass aborts the whole operation with no general-pass
request; the general pass skips Namespace objects. -/
theorem deploy_namespace_prepass (c : Cluster) (dep : List KubeObject) (upd del : Bool) :
    (∃ a b, (deployObjectsRun c dep upd del).2.2 = a ++ b
       ∧ (∀ r ∈ a, isNsCreateReq r = true) ∧ (∀ r ∈ b, isNsCreateReq r = false))
    ∧ ((∀ r, c.faults r = none) →
        ∃ b, (deployObjectsRun c dep upd del).2.2
            = (objectsOfVersionKind dep "Namespace").map (fun o => Req.nsCreate o.meta.name)
              ++ b
          ∧ ∀ r ∈ b, isNsCreateReq r = false)
    ∧ (∀ o rest e, c.faults (Req.nsCreate o.meta.name) = some e →
        alreadyExists (some e) = true →
        nsPrePass c (o :: rest)
          = ((nsPrePass c rest).1, (nsPrePass c rest).2.1,
             Req.nsCreate o.meta.name :: (nsPrePass c rest).2.2))
    ∧ (∀ o rest e, c.faults (Req.nsCreate o.meta.name) = some e →
        alreadyExists (some e) = false →
        nsPrePass c (o :: rest) = (Except.error e, c, [Req.nsCreate o.meta.name]))
    ∧ (∀ e, (nsPrePass c (objectsOfVersionKind dep "Namespace")).1 = Except.error e →
        deployObjectsRun c dep upd del
          = (Except.error e, (nsPrePass c (objectsOfVersionKind dep "Namespace")).2.1,
             (nsPrePass c (objectsOfVersionKind dep "Namespace")).2.2))
    ∧ (∀ c' o rest, isNamespaceObj o = true →
        generalPass upd del c' (o :: rest) = generalPass upd del c' rest) := by
  refine ⟨?_, ?_, ?_, ?_, ?_, ?_⟩
  · rcases hp : (nsPrePass c (objectsOfVersionKind dep "Namespace")).1 with e | u
    · refine ⟨(nsPrePass c (objectsOfVersionKind dep "Namespace")).2.2, [], ?_, ?_, ?_⟩
      · unfold deployObjectsRun
        rw [hp]
        simp
      · exact fun r hr => nsPrePass_trace_mem _ c r hr
      · intro r hr
        simp at hr
    · refine ⟨(nsPrePass c (objectsOfVersionKind dep "Namespace")).2.2,
        (generalPass upd del (nsPrePass c (objectsOfVersionKind dep "Namespace")).2.1 dep).2.2,
        ?_, ?_, ?_⟩
      · unfold deployObjectsRun
        rw [hp]
      · exact fun r hr => nsPrePass_trace_mem _ c r hr
      · exact fun r hr => generalPass_no_nsCreate upd del dep _ r hr
  · intro hNF
    have hpre := nsPrePass_noFaults (objectsOfVersionKind dep "Namespace") c hNF
    refine ⟨(generalPass upd del (nsPrePass c (objectsOfVersionKind dep "Namespace")).2.1
      dep).2.2, ?_, ?_⟩
    · unfold deployObjectsRun
      rw [hpre.1, ← hpre.2.1]
    · exact fun r hr => generalPass_no_nsCreate upd del dep _ r hr
  · intro o rest e hf ha
    have hOp : nsCreateOp c o = (Except.error e, c, [Req.nsCreate o.meta.name]) := by
      unfold nsCreateOp
      simp [hf]
    conv_lhs => rw [nsPrePass]
    rw [hOp]
    simp only []
    rw [if_pos ha]
    rcases hP : nsPrePass c rest with ⟨res2, c2, r2⟩
    simp
  · intro o rest e hf ha
    have hOp : nsCreateOp c o = (Except.error e, c, [Req.nsCreate o.meta.name]) := by
      unfold nsCreateOp
      simp [hf]
    conv_lhs => rw [nsPrePass]
    rw [hOp]
    simp only []
    rw [if_neg (by simp [ha])]
  · intro e hp
    unfold deployObjectsRun
    rw [hp]
  · intro c' o rest ho
    exact generalPass_skips_namespaces upd del c' o rest ho

theorem deployObjectsRun_no_cleanup (c : Cluster) (dep : List KubeObject) (upd : Bool) :
    ∀ r ∈ (deployObjectsRun c dep upd false).2.2, isPodDeleteReq r = false := by
  intro r hr
  unfold deployObjectsRun at hr
  rcases hp : (nsPrePass c (objectsOfVersionKind dep "Namespace")).1 with e | u <;>
    rw [hp] at hr <;> simp only [] at hr
  · have := nsPrePass_trace_mem (objectsOfVersionKind dep "Namespace") c r hr
    cases r <;> simp_all [isNsCreateReq, isPodDeleteReq]
  · rw [List.mem_append] at hr
    rcases hr with hr | hr
    · have := nsPrePass_trace_mem (objectsOfVersionKind dep "Namespace") c r hr
      cases r <;> simp_all [isNsCreateReq, isPodDeleteReq]
    · exact generalPass_no_cleanup_flag upd dep _ r hr

def rcLive : KubeObject := .rc ⟨"rc1", "ns1", "4", [("v", "1")]⟩ ⟨[("app", "a")]⟩

def rcDesired : KubeObject := .rc ⟨"rc1", "ns1", "", [("v", "2")]⟩ ⟨[("app", "a")]⟩

def pod1 : KubeObject := .pod ⟨"pod1", "ns1", "1", [("app", "a")]⟩

def pod2 : KubeObject := .pod ⟨"pod2", "ns1", "1", [("app", "a")]⟩

def podOther : KubeObject := .pod ⟨"pod3", "ns1", "1", [("app", "b")]⟩

def c3Fault : Req → Option String :=
  fun r => if r = Req.podDelete "ns1" "pod2" then some "boom" else none

def c3Cluster : Cluster :=
  ⟨[(⟨"ReplicationController", "ns1", "rc1"⟩, rcLive), (⟨"Pod", "ns1", "pod1"⟩, pod1),
    (⟨"Pod", "ns1", "pod2"⟩, pod2), (⟨"Pod", "ns1", "pod3"⟩, podOther)], c3Fault, 9⟩

/-- C3 (amended): pod deletion happens only when `deleteModifiedPods` is
set (a run with the flag off issues no pod-delete request at all), only
for replication-controller objects, and only after a successful deploy of
that controller — the successful update in update mode, and equally the
successful create in create mode — never before: a failed deploy aborts
the step with no deletion, and on success the pod listing and deletions
follow the controller's requests in the trace; with no faults, exactly
the pods of the controller's namespace whose labels match its selector
are deleted; a deletion error aborts the step with the wrapped message,
and at a concrete two-pod input the pod deleted before the failing
deletion stays deleted (no rollback). -/
theorem cleanup_modified_controllers :
    (∀ c dep upd, ∀ r ∈ (deployObjectsRun c dep upd false).2.2, isPodDeleteReq r = false)
    ∧ (∀ c obj upd del, isRCObj obj = false →
        ∀ r ∈ (deployStep c obj upd del).2.2, isPodDeleteReq r = false)
    ∧ (∀ c m spec upd del e,
        (deployOne c (KubeObject.rc m spec) upd (mappingOf (KubeObject.rc m spec))).1
          = Except.error e →
        deployStep c (KubeObject.rc m spec) upd del
          = (Except.error e,
             (deployOne c (KubeObject.rc m spec) upd
               (mappingOf (KubeObject.rc m spec))).2.1,
             (deployOne c (KubeObject.rc m spec) upd
               (mappingOf (KubeObject.rc m spec))).2.2))
    ∧ (∀ c m spec upd,
        (deployOne c (KubeObject.rc m spec) upd (mappingOf (KubeObject.rc m spec))).1
          = Except.ok () →
        (deployStep c (KubeObject.rc m spec) upd true).2.2
          = (deployOne c (KubeObject.rc m spec) upd
              (mappingOf (KubeObject.rc m spec))).2.2
            ++ (deletePodsRun
                (deployOne c (KubeObject.rc m spec) upd
                  (mappingOf (KubeObject.rc m spec))).2.1
                m.nspace spec.selector).2.2)
    ∧ (∀ c ns sel, (∀ r, Cluster.faults c r = none) →
        (deletePodsRun c ns sel).1 = Except.ok ()
        ∧ (deletePodsRun c ns sel).2.2
          = Req.podList ns sel
            :: (podsMatching c.live ns sel).map
                (fun p => Req.podDelete p.meta.nspace p.meta.name))
    ∧ (∀ c m spec upd e,
        (deployOne c (KubeObject.rc m spec) upd (mappingOf (KubeObject.rc m spec))).1
          = Except.ok () →
        (deletePodsRun
            (deployOne c (KubeObject.rc m spec) upd
              (mappingOf (KubeObject.rc m spec))).2.1
            m.nspace spec.selector).1 = Except.error e →
        (deployStep c (KubeObject.rc m spec) upd true).1
          = Except.error ("could not delete pods for rc `" ++ m.nspace ++ "/" ++ m.name
              ++ "`: " ++ e))
    ∧ ((deployStep c3Cluster rcDesired true true).1
        = Except.error "could not delete pods for rc `ns1/rc1`: boom"
      ∧ lookupKey (deployStep c3Cluster rcDesired true true).2.1.live
          ⟨"Pod", "ns1", "pod1"⟩ = none
      ∧ lookupKey (deployStep c3Cluster rcDesired true true).2.1.live
          ⟨"Pod", "ns1", "pod2"⟩ = some pod2) := by
  refine ⟨deployObjectsRun_no_cleanup, deployStep_not_rc, ?_, ?_, ?_, ?_, by decide⟩
  · intro c m spec upd del e hE
    exact deployStep_rc_deploy_err c m spec upd del e hE
  · intro c m spec upd hOk
    exact deployStep_rc_del_trace c m spec upd hOk
  · intro c ns sel h
    exact deletePodsRun_noFaults c ns sel h
  · intro c m spec upd e hOk hd
    exact deployStep_rc_del_err c m spec upd e hOk hd

def c3OkCluster : Cluster :=
  ⟨[(⟨"ReplicationController", "ns1", "rc1"⟩, rcLive), (⟨"Pod", "ns1", "pod1"⟩, pod1),
    (⟨"Pod", "ns1", "pod2"⟩, pod2), (⟨"Pod", "ns1", "pod3"⟩, podOther)], noFaults, 9⟩

theorem cleanup_modified_controllers_witness :
    isPodDeleteReq (Req.getReq "ReplicationController" "ns1" "rc1" true) = false
    ∧ isPodDeleteReq (Req.getReq "Pod" "ns1" "pod1" true) = false
    ∧ (deployStep c3OkCluster rcDesired true true).2.2
      = (deployOne c3OkCluster rcDesired true
          (mappingOf rcDesired)).2.2
        ++ (deletePodsRun (deployOne c3OkCluster rcDesired true
              (mappingOf rcDesired)).2.1 "ns1" [("app", "a")]).2.2
    ∧ ((deletePodsRun c3OkCluster "ns1" [("app", "a")]).1 = Except.ok ()
      ∧ (deletePodsRun c3OkCluster "ns1" [("app", "a")]).2.2
        = Req.podList "ns1" [("app", "a")]
          :: (podsMatching c3OkCluster.live "ns1" [("app", "a")]).map
              (fun p => Req.podDelete p.meta.nspace p.meta.name))
    ∧ (deployStep c3Cluster rcDesired true true).1
      = Except.error "could not delete pods for rc `ns1/rc1`: boom" :=
  ⟨(cleanup_modified_controllers.1 c3OkCluster [rcDesired] true)
      (Req.getReq "ReplicationController" "ns1" "rc1" true) (by decide),
   (cleanup_modified_controllers.2.1 c3OkCluster pod1 true true (by decide))
      (Req.getReq "Pod" "ns1" "pod1" true)
      (by decide),
   cleanup_modified_controllers.2.2.2.1 c3OkCluster ⟨"rc1", "ns1", "", [("v", "2")]⟩
      ⟨[("app", "a")]⟩ true (by decide),
   cleanup_modified_controllers.2.2.2.2.1 c3OkCluster "ns1" [("app", "a")] (fun _ => rfl),
   cleanup_modified_controllers.2.2.2.2.2.1 c3Cluster ⟨"rc1", "ns1", "", [("v", "2")]⟩
      ⟨[("app", "a")]⟩ true "boom" (by decide) (by decide)⟩

def c3CreateCluster : Cluster :=
  ⟨[(⟨"Pod", "ns1", "pod1"⟩, pod1), (⟨"Pod", "ns1", "pod2"⟩, pod2)], noFaults, 9⟩

/-- C3 counterexample: with update mode off and `deleteModifiedPods` set,
a successful create of a replication controller also triggers pod
deletion — the concrete run succeeds, its trace deletes the matching pods
yet contains no patch request and no fetch at all, so no update of the
controller ever happened: deletion is not exclusively a consequence of
the update path. -/
theorem cleanup_after_create_cex :
    (deployStep c3CreateCluster rcDesired false true).1 = Except.ok ()
    ∧ Req.podDelete "ns1" "pod1" ∈ (deployStep c3CreateCluster rcDesired false true).2.2
    ∧ Req.podDelete "ns1" "pod2" ∈ (deployStep c3CreateCluster rcDesired false true).2.2
    ∧ ∀ r ∈ (deployStep c3CreateCluster rcDesired false true).2.2,
        isPatchReq r = false ∧ isGetReq r = false := by decide

def c2Bundle : List KubeObject :=
  [KubeObject.pod ⟨"p1", "ns1", "", []⟩, KubeObject.nsObj ⟨"ns1", "", "", []⟩]

def c2Cluster : Cluster := ⟨[], noFaults, 0⟩

def c2AbortFault : Req → Option String :=
  fun r => if r = Req.nsCreate "ns1" then some "boom" else none

def c2ExistsFault : Req → Option String :=
  fun r => if r = Req.nsCreate "ns1" then some "namespaces \"ns1\" already exists" else none

def c2AbortCluster : Cluster := ⟨[], c2AbortFault, 0⟩

def c2ExistsCluster : Cluster := ⟨[], c2ExistsFault, 0⟩

theorem deploy_namespace_prepass_witness :
    (∃ b, (deployObjectsRun c2Cluster c2Bundle false false).2.2
        = (objectsOfVersionKind c2Bundle "Namespace").map (fun o => Req.nsCreate o.meta.name)
          ++ b
      ∧ ∀ r ∈ b, isNsCreateReq r = false)
    ∧ nsPrePass c2ExistsCluster [KubeObject.nsObj ⟨"ns1", "", "", []⟩]
      = ((nsPrePass c2ExistsCluster ([] : List KubeObject)).1,
         (nsPrePass c2ExistsCluster ([] : List KubeObject)).2.1,
         Req.nsCreate "ns1" :: (nsPrePass c2ExistsCluster ([] : List KubeObject)).2.2)
    ∧ nsPrePass c2AbortCluster [KubeObject.nsObj ⟨"ns1", "", "", []⟩]
      = (Except.error "boom", c2AbortCluster, [Req.nsCreate "ns1"])
    ∧ generalPass false false c2Cluster c2Bundle.tail
      = generalPass false false c2Cluster ([] : List KubeObject) :=
  ⟨(deploy_namespace_prepass c2Cluster c2Bundle false false).2.1 (fun _ => rfl),
   (deploy_namespace_prepass c2ExistsCluster c2Bundle false false).2.2.1
     (KubeObject.nsObj ⟨"ns1", "", "", []⟩) [] "namespaces \"ns1\" already exists"
     (by decide) (by decide),
   (deploy_namespace_prepass c2AbortCluster c2Bundle false false).2.2.2.1
     (KubeObject.nsObj ⟨"ns1", "", "", []⟩) [] "boom" (by decide) (by decide),
   (deploy_namespace_prepass c2Cluster c2Bundle false false).2.2.2.2.2
     c2Cluster (KubeObject.nsObj ⟨"ns1", "", "", []⟩) [] (by decide)⟩

theorem insertName_contains (n : String) (l : List String) :
    (insertName n l).contains n = true := by
  unfold insertName
  by_cases h : l.contains n = true
  · rw [if_pos h]
    exact h
  · rw [if_neg h]
    simp

/-- C8: each assigned ingress point of a polled load-balancer service
marks the service completed, and its report shows the hostname with the IP
appended parenthetically when both are present, or the IP alone when the
hostname is empty. -/
theorem ingress_reporting :
    (∀ lb : LBIngress, lb.hostname ≠ "" → lb.ip ≠ "" →
        ingressHostText lb = lb.hostname ++ " (" ++ lb.ip ++ ")")
    ∧ (∀ lb : LBIngress, lb.hostname = "" → ingressHostText lb = lb.ip)
    ∧ (∀ (c : Cluster) (completed : List String) (s : Svc)
        (m : ObjectMeta) (sp : ServiceSpec) (st : ServiceStatus),
        s.spec.typ = ServiceType.loadBalancer →
        completed.contains s.meta.name = false →
        c.faults (Req.svcGet s.meta.nspace s.meta.name) = none →
        lookupKey c.live ⟨"Service", s.meta.nspace, s.meta.name⟩
          = some (KubeObject.service m sp st) →
        st.ingress ≠ [] →
        plbService c false completed s
          = RoundOut.ok (insertName s.meta.name completed)
              [Req.svcGet s.meta.nspace s.meta.name]
              (st.ingress.map
                (fun lb => lbLine s.meta.nspace s.meta.name (ingressHostText lb)))
        ∧ (insertName s.meta.name completed).contains s.meta.name = true) := by
  refine ⟨?_, ?_, ?_⟩
  · intro lb h1 h2
    unfold ingressHostText
    rw [if_pos (fun h => h2 ((strLength_eq_zero lb.ip).mp h))]
    rw [if_neg (fun h => h1 ((strLength_eq_zero lb.hostname).mp h))]
  · intro lb h1
    unfold ingressHostText
    by_cases hip : lb.ip.length ≠ 0
    · rw [if_pos hip, if_pos (by rw [h1]; rfl)]
    · rw [if_neg hip, h1]
      have : lb.ip = "" := (strLength_eq_zero lb.ip).mp (by omega)
      rw [this]
  · intro c completed s m sp st hT hC hF hLive hIng
    constructor
    · have hnotmem : s.meta.name ∉ completed := by
        intro hmem
        have hciff : completed.contains s.meta.name = true :=
          List.contains_iff_exists_mem_beq.mpr ⟨s.meta.name, hmem, by simp⟩
        rw [hC] at hciff
        cases hciff
      unfold plbService
      rw [hT]
      rw [if_pos (by simp [hnotmem])]
      simp only []
      rw [hF]
      simp only []
      rw [hLive]
      simp only [asSvc]
      rcases hi : st.ingress with _ | ⟨lb0, restI⟩
      · exact absurd hi hIng
      · simp [hi]
    · exact insertName_contains s.meta.name completed

def c8Ingress : LBIngress := ⟨"1.2.3.4", "lb.example.com"⟩

def c8IngressNoHost : LBIngress := ⟨"1.2.3.4", ""⟩

def c8Svc : Svc := ⟨⟨"lb", "default", "", []⟩, ⟨.loadBalancer, "", []⟩, ⟨[]⟩⟩

def c8Live : KubeObject :=
  .service ⟨"lb", "default", "9", []⟩ ⟨.loadBalancer, "10.1.1.1", []⟩ ⟨[c8Ingress]⟩

def c8Cluster : Cluster := ⟨[(⟨"Service", "default", "lb"⟩, c8Live)], noFaults, 0⟩

theorem ingress_reporting_witness :
    ingressHostText c8Ingress = "lb.example.com" ++ " (" ++ "1.2.3.4" ++ ")"
    ∧ ingressHostText c8IngressNoHost = "1.2.3.4"
    ∧ plbService c8Cluster false [] c8Svc
      = RoundOut.ok (insertName "lb" []) [Req.svcGet "default" "lb"]
          ([c8Ingress].map (fun lb => lbLine "default" "lb" (ingressHostText lb))) :=
  ⟨ingress_reporting.1 c8Ingress (by decide) (by decide),
   ingress_reporting.2.1 c8IngressNoHost (by decide),
   (ingress_reporting.2.2 c8Cluster [] c8Svc ⟨"lb", "default", "9", []⟩
     ⟨.loadBalancer, "10.1.1.1", []⟩ ⟨[c8Ingress]⟩ rfl (by decide) rfl (by decide)
     (by decide)).1⟩

/-- C9: the monitor returns immediately — no fetch request, no sleep, for
any fuel — on every service list (empty or not) in which no service has
type LoadBalancer; only LoadBalancer services are ever polled or waited
on. -/
theorem monitor_no_loadbalancers (fuel : Nat) (c : Cluster) (services : List Svc)
    (lk : Bool) (h : ∀ s ∈ services, s.spec.typ ≠ ServiceType.loadBalancer) :
    printLoadBalancersRun fuel c services lk = PlbResult.finished [] [] := by
  unfold printLoadBalancersRun
  by_cases he : services.isEmpty = true
  · rw [if_pos he]
  · rw [if_neg he]
    have hdone : plbDone services [] = true := by
      unfold plbDone
      rw [List.all_eq_true]
      intro s hs
      have := h s hs
      rcases htyp : s.spec.typ == ServiceType.loadBalancer with _ | _
      · simp [htyp]
      · exact absurd (by simpa using htyp) this
    cases fuel <;> unfold plbLoop <;> rw [if_pos hdone]

theorem monitor_no_loadbalancers_witness :
    printLoadBalancersRun 2
      ⟨[], noFaults, 0⟩ [⟨⟨"web", "default", "", []⟩, ⟨.clusterIPType, "", []⟩, ⟨[]⟩⟩]
      false = PlbResult.finished [] [] :=
  monitor_no_loadbalancers 2 ⟨[], noFaults, 0⟩
    [⟨⟨"web", "default", "", []⟩, ⟨.clusterIPType, "", []⟩, ⟨[]⟩⟩] false (by decide)

/-- C10: when fetching an incomplete LoadBalancer service's live state
returns an error, the monitor prints the error and then dereferences the
nil fetch result (its ports or ingress status), so the polling loop ends
in a panic instead of skipping the service. -/
theorem monitor_fetch_error_panics (c : Cluster) (s : Svc) (lk : Bool) (e : String)
    (hT : s.spec.typ = ServiceType.loadBalancer)
    (hF : c.faults (Req.svcGet s.meta.nspace s.meta.name) = some e) :
    printLoadBalancersRun 1 c [s] lk
      = PlbResult.panicked [Req.svcGet s.meta.nspace s.meta.name]
          ["Waiting for load balancer deployment...",
           "Error getting service `" ++ s.meta.name ++ "`: " ++ e] := by
  unfold printLoadBalancersRun
  rw [if_neg (by simp)]
  unfold plbLoop
  rw [if_neg (by simp [plbDone, hT])]
  unfold plbRound plbService
  rw [hT]
  rw [if_pos (by simp)]
  simp only []
  rw [hF]
  simp

def c10Fault : Req → Option String :=
  fun r => if r = Req.svcGet "default" "lb" then some "connection refused" else none

theorem monitor_fetch_error_panics_witness :
    printLoadBalancersRun 1 ⟨[], c10Fault, 0⟩
      [⟨⟨"lb", "default", "", []⟩, ⟨.loadBalancer, "", []⟩, ⟨[]⟩⟩] false
      = PlbResult.panicked [Req.svcGet "default" "lb"]
          ["Waiting for load balancer deployment...",
           "Error getting service `lb`: connection refused"] :=
  monitor_fetch_error_panics ⟨[], c10Fault, 0⟩
    ⟨⟨"lb", "default", "", []⟩, ⟨.loadBalancer, "", []⟩, ⟨[]⟩⟩ false "connection refused"
    rfl (by decide)

end SpreadDeploy
